import Mathlib

/-!
Verification of the branch-scoped reconciliation / aggregation / task-derivation
core of `streamlit_app.py` (GitHub-PM dashboard).

Shallow embedding conventions:
* Python dicts holding JSON data become Lean structures; `d.get(k)` with a
  possibly-missing key becomes an `Option` field.
* Timestamps are integers: seconds since epoch for commit dates (the health
  scorer divides by 86400 to obtain whole days, matching `timedelta.days`
  which floors), minutes since epoch for the Gantt builder (whose inputs come
  from `strptime(ds[:16], "%Y-%m-%d %H:%M")` and therefore have minute
  granularity; dates are whole-day numbers, `combine(d, time(0)) = d*1440`).
* Functions that can raise become `Except String` values.
-/

namespace GithubPM

/-! ### Health Scorer (`_health_score`) -/

/-- A commit row as built by `collect_branch_data`: only the `date` field is
read by `_health_score` (`c["date"]`, a possibly-`None` parsed datetime,
modelled as seconds since epoch). -/
structure CommitRow where
  date : Option Int
deriving DecidableEq, Repr

/-- An issue row: `_health_score` reads only `i["state"]`. -/
structure IssueRow where
  state : String
deriving DecidableEq, Repr

/-- A pull-request row: `_health_score` reads only `p["state"]`. -/
structure PullRow where
  state : String
deriving DecidableEq, Repr

/-- The slice of the `collect_branch_data` result dict that `_health_score`
reads: `data["commits"]`, `data["issues"]`, `data["branch_pulls"]` and the
keys of `data["author_stats"]`. -/
structure HealthData where
  commits : List CommitRow
  issues : List IssueRow
  branch_pulls : List PullRow
  author_stats : List String
deriving DecidableEq, Repr

/-- Recency contribution of `_health_score` (lines 768-782): when the commit
list is non-empty, the latest parseable date is compared with `now`
(`(dt.datetime.now(dt.UTC) - latest).days`, i.e. floored whole days, hence
`Int.fdiv` by 86400); an empty commit list costs 15 points.  A non-empty list
in which no commit has a date adds nothing. -/
def recencyAdj (commits : List CommitRow) (now : Int) : Int :=
  match commits with
  | [] => -15
  | _ :: _ =>
    match commits.filterMap (·.date) with
    | [] => 0
    | d :: ds =>
      let latest := ds.foldl max d
      let days := Int.fdiv (now - latest) 86400
      if days ≤ 7 then 20
      else if days ≤ 30 then 12
      else if days ≤ 90 then 5
      else -10

/-- Issue-resolution contribution (lines 784-786):
`int(closed / len(issues) * 15)` for a non-empty issue list, expressed with
exact natural-number floor division. -/
def issueAdj (issues : List IssueRow) : Int :=
  match issues with
  | [] => 0
  | _ :: _ =>
    let closed := issues.countP (fun i => i.state == "closed")
    ((closed * 15) / issues.length : Nat)

/-- PR-merge contribution (lines 788-790): `int(merged / len(pulls) * 15)`
for a non-empty branch-PR list. -/
def prAdj (pulls : List PullRow) : Int :=
  match pulls with
  | [] => 0
  | _ :: _ =>
    let merged := pulls.countP (fun p => p.state == "merged")
    ((merged * 15) / pulls.length : Nat)

/-- Contributor-count contribution (lines 792-796). -/
def authorAdj (n : Nat) : Int :=
  if n ≥ 3 then 10
  else if n ≥ 2 then 5
  else 0

/-- `_health_score(data)`: baseline 50, the four adjustments, then
`min(100, max(0, score))`. -/
def healthScore (data : HealthData) (now : Int) : Int :=
  min 100 (max 0
    (50 + recencyAdj data.commits now + issueAdj data.issues
        + prAdj data.branch_pulls + authorAdj data.author_stats.length))

/-- The all-empty input of the spec's example: zero commits, issues, branch
PRs and authors. -/
def emptyHealthData : HealthData :=
  { commits := [], issues := [], branch_pulls := [], author_stats := [] }

/-! ### File Classifier (`_classify_file`) -/

/-- Python strings are modelled as character lists so that substring and
splitting operations stay fully executable. -/
abbrev PyStr := List Char

/-- Coerce a Lean string literal into the character-list model. -/
def pstr (s : String) : PyStr := s.toList

/-- `needle in haystack` for Python strings: does `pat` occur as a contiguous
substring of `name`?  (`"" in s` is `True`.) -/
def pyStartsWith : PyStr → PyStr → Bool
  | _, [] => true
  | [], _ :: _ => false
  | c :: cs, p :: ps => c == p && pyStartsWith cs ps

/-- Substring test, scanning every suffix. -/
def pyContains : PyStr → PyStr → Bool
  | [], pat => pat.isEmpty
  | c :: cs, pat => pyStartsWith (c :: cs) pat || pyContains cs pat

/-- `FILE_NAME_PATTERNS` (lines 115-123): ordered category → substring
patterns, iterated in insertion order. -/
def FILE_NAME_PATTERNS : List (String × List PyStr) :=
  [ ("Testing", [pstr "test_", pstr "_test.", pstr ".test.", pstr "spec.",
                 pstr ".spec.", pstr "conftest"]),
    ("Dependencies", [pstr "requirements", pstr "package.json", pstr "pipfile",
                      pstr "cargo.toml", pstr "go.mod", pstr "pom.xml",
                      pstr "build.gradle", pstr "gemfile", pstr "poetry.lock",
                      pstr "yarn.lock", pstr "package-lock"]),
    ("Build/CI", [pstr "dockerfile", pstr "makefile", pstr ".github",
                  pstr "jenkinsfile", pstr ".gitlab-ci", pstr ".circleci",
                  pstr "tox.ini", pstr "setup.py", pstr "setup.cfg",
                  pstr "pyproject.toml"]) ]

/-- `FILE_CLASS_MAP` (lines 101-114): category → extension set (iterated in
insertion order; the last three categories have empty extension sets). -/
def FILE_CLASS_MAP : List (String × List PyStr) :=
  [ ("Source Code", [pstr ".py", pstr ".js", pstr ".ts", pstr ".jsx",
      pstr ".tsx", pstr ".java", pstr ".go", pstr ".rs", pstr ".c",
      pstr ".cpp", pstr ".h", pstr ".cs", pstr ".rb", pstr ".php",
      pstr ".swift", pstr ".kt", pstr ".scala", pstr ".r", pstr ".m",
      pstr ".vue", pstr ".svelte"]),
    ("Configuration", [pstr ".json", pstr ".yaml", pstr ".yml", pstr ".toml",
      pstr ".ini", pstr ".cfg", pstr ".conf", pstr ".env", pstr ".properties",
      pstr ".xml"]),
    ("Documentation", [pstr ".md", pstr ".rst", pstr ".txt", pstr ".doc",
      pstr ".pdf", pstr ".adoc"]),
    ("Data", [pstr ".csv", pstr ".sql", pstr ".db", pstr ".sqlite",
      pstr ".parquet", pstr ".jsonl"]),
    ("Web Assets", [pstr ".html", pstr ".css", pstr ".scss", pstr ".less",
      pstr ".svg", pstr ".png", pstr ".jpg", pstr ".jpeg", pstr ".gif",
      pstr ".ico", pstr ".woff", pstr ".woff2", pstr ".ttf"]),
    ("Testing", []),
    ("Dependencies", []),
    ("Build/CI", []) ]

/-- `path.lower().split("/")[-1]`: the lower-cased basename. -/
def lowerBasename (path : PyStr) : PyStr :=
  ((path.map Char.toLower).splitOn '/').getLastD []

/-- `"." + name.rsplit(".", 1)[-1] if "." in name else ""`: the final dotted
suffix of the basename, dot included; empty when the name has no dot. -/
def extOf (name : PyStr) : PyStr :=
  if name.contains '.' then
    '.' :: (name.reverse.takeWhile (fun c => c != '.')).reverse
  else []

/-- `_classify_file(path)` (lines 439-449): filename-pattern categories are
tried first, in declared order; then the extension table; else `"Other"`. -/
def classifyFile (path : PyStr) : String :=
  match FILE_NAME_PATTERNS.find? (fun q =>
      q.2.any (fun pat => pyContains (lowerBasename path) pat)) with
  | some q => q.1
  | none =>
    match FILE_CLASS_MAP.find? (fun q =>
        q.2.contains (extOf (lowerBasename path))) with
    | some q => q.1
    | none => "Other"

/-- The closed category set: the keys of `FILE_CLASS_MAP` together with the
`"Other"` fallback (the keys of `FILE_NAME_PATTERNS` are a subset). -/
def CATEGORY_SET : List String :=
  ["Source Code", "Configuration", "Documentation", "Data", "Web Assets",
   "Testing", "Dependencies", "Build/CI", "Other"]

/-! ### Provider Client (`_gh_get`) -/

/-- `_gh_get` (lines 483-494), with the HTTP response abstracted to its
status code, its parsed JSON body (`resp.json()`; `Except.error` when parsing
raises) and the body's `message` field (`resp.json().get("message", ...)`;
`none` when the body fails to parse, is not an object, or lacks the field —
every such case falls to the `"HTTP {code}"` default). -/
def ghGet {α : Type} (status : Nat) (body : Except String α)
    (message : Option String) : Except String (Option α) :=
  if status = 202 ∨ status = 204 ∨ status = 404 then
    Except.ok none
  else if status ≥ 400 then
    Except.error ("GitHub API " ++ toString status ++ ": "
      ++ message.getD ("HTTP " ++ toString status))
  else
    body.map some

/-! ### Branch Reconciler (`collect_branch_data`, lines 596-614) -/

/-- A raw commit JSON object as consumed by the reconciliation filter:
`c.get("sha")` may be missing. -/
structure RawCommit where
  sha : Option String
deriving DecidableEq, Repr

/-- The compare-API response slice: `compare.get("commits", [])` and
`compare.get("ahead_by", 0)`. -/
structure CompareData where
  commits : List RawCommit
  ahead_by : Nat
deriving DecidableEq, Repr

/-- `{c.get("sha") for c in cs if c.get("sha")}`: the set of truthy shas,
as a deduplicated list. -/
def truthyShas (cs : List RawCommit) : List String :=
  ((cs.filterMap (·.sha)).filter (fun s => s ≠ "")).dedup

/-- The hash-exclusion fallback: keep commits whose sha is not in the
default-branch sha set (`c.get("sha") not in default_shas`; a missing sha is
never in the set, so such commits are kept). -/
def shaExclusion (all_commits : List RawCommit) (default_shas : List String) :
    List RawCommit :=
  all_commits.filter (fun c =>
    match c.sha with
    | some s => ! default_shas.contains s
    | none => true)

/-- The commit-filtering step of `collect_branch_data` (lines 597-614).
`compareFetch` is the outcome of `_fetch_compare` (the `try` block catches
any exception it raises and falls back to sha exclusion); `default_shas`
models `_fetch_default_shas`. -/
def reconcileCommits (all_commits : List RawCommit)
    (branch default_branch : String)
    (compareFetch : Except String CompareData)
    (default_shas : List String) : List RawCommit :=
  if branch ≠ default_branch then
    match compareFetch with
    | Except.ok compare =>
      let compare_shas := truthyShas compare.commits
      if ¬ compare_shas.isEmpty ∧ compare_shas.length ≥ compare.ahead_by then
        all_commits.filter (fun c =>
          match c.sha with
          | some s => compare_shas.contains s
          | none => false)
      else
        shaExclusion all_commits default_shas
    | Except.error _ => shaExclusion all_commits default_shas
  else
    all_commits

/-! ### Commit-row construction (`collect_branch_data`, lines 622-652) -/

/-- Python `str.splitlines` boundary characters (LF, CR, VT, FF, FS, GS, RS,
NEL, LINE SEPARATOR, PARAGRAPH SEPARATOR). -/
def isLineBoundary (c : Char) : Bool :=
  c.toNat = 10 || c.toNat = 13 || c.toNat = 11 || c.toNat = 12 ||
  c.toNat = 28 || c.toNat = 29 || c.toNat = 30 || c.toNat = 133 ||
  c.toNat = 8232 || c.toNat = 8233

/-- Worker for `splitlines`: accumulates the current line (reversed);
a CRLF pair counts as a single boundary. -/
def splitlinesGo : PyStr → PyStr → List PyStr
  | [], acc => if acc.isEmpty then [] else [acc.reverse]
  | '\r' :: '\n' :: rest, acc => acc.reverse :: splitlinesGo rest []
  | c :: rest, acc =>
    if isLineBoundary c then acc.reverse :: splitlinesGo rest []
    else splitlinesGo rest (c :: acc)

/-- Python `s.splitlines()`; in particular `"".splitlines() == []`. -/
def splitlines (s : PyStr) : List PyStr := splitlinesGo s []

/-- The commit JSON fields read by the row-construction loop:
`c["sha"]`, `c["commit"]["message"]`, `c["commit"]["author"]["name"/"date"]`,
`c["author"]["login"/"avatar_url"]`.  Missing dicts default to `{}` in the
source (`or {}`), so only the leaf values are optional here. -/
structure CommitJson where
  sha : Option String
  message : Option String
  author_name : Option String
  author_date : Option Int
  login : Option String
  avatar_url : Option String
deriving DecidableEq, Repr

/-- A produced commit row (the fields derived from the message and author;
`date_str`/`date_day` formatting is presentation-only and elided). -/
structure BuiltRow where
  sha_short : PyStr
  sha_full : PyStr
  message : PyStr
  full_message : PyStr
  author_id : String
  author_name : String
  author_login : Option String
deriving DecidableEq, Repr

/-- `msg = (cd.get("message") or "").splitlines()[0]` (line 632): indexing
`[0]` raises `IndexError` when `splitlines` returns the empty list, which
happens exactly when the message is absent or the empty string. -/
def firstMessageLine (message : Option String) : Except String PyStr :=
  match splitlines (pstr (message.getD "")) with
  | [] => Except.error "IndexError: list index out of range"
  | l :: _ => Except.ok l

/-- One iteration of the row-construction loop (lines 622-641), up to the
fields that involve computation; raises exactly when `firstMessageLine`
does. -/
def buildCommitRow (c : CommitJson) : Except String BuiltRow :=
  let sha := pstr (c.sha.getD "")
  let name := match c.author_name with
    | some n => if n = "" then "Unknown" else n
    | none => "Unknown"
  let aid := match c.login with
    | some l => if l = "" then name else l
    | none => name
  match firstMessageLine c.message with
  | Except.error e => Except.error e
  | Except.ok msg =>
    Except.ok
      { sha_short := sha.take 7, sha_full := sha, message := msg,
        full_message := pstr (c.message.getD ""),
        author_id := aid, author_name := name,
        author_login := match c.login with
          | some l => if l = "" then none else some l
          | none => none }

/-- The author-rollup record of `collect_branch_data` (lines 617-620). -/
structure AuthorStat where
  commits : Nat
  first : Option Int
  last : Option Int
  login : Option String
  name : Option String
  avatar : Option String
deriving DecidableEq, Repr

/-- The `defaultdict` default for `author_stats`. -/
def emptyAuthorStat : AuthorStat :=
  { commits := 0, first := none, last := none,
    login := none, name := none, avatar := none }

/-- The rollup-update statements of the loop body (lines 643-652), applied to
the stat record owned by the commit's author id.  Total: no field access can
raise. -/
def updateAuthorStat (c : CommitJson) (s : AuthorStat) : AuthorStat :=
  let name := match c.author_name with
    | some n => if n = "" then "Unknown" else n
    | none => "Unknown"
  let login := match c.login with
    | some l => if l = "" then none else some l
    | none => none
  let s1 : AuthorStat :=
    { s with
      commits := s.commits + 1,
      login := match login with | some l => some l | none => s.login,
      name := some name,
      avatar := match c.avatar_url with
        | some a => if a = "" then s.avatar else some a
        | none => s.avatar }
  match c.author_date with
  | none => s1
  | some d =>
    { s1 with
      first := some (match s1.first with | none => d | some f => min d f),
      last := some (match s1.last with | none => d | some l => max d l) }

/-! ### Author Aggregator enrichment pass (`page_author_intelligence`,
lines 1293-1309) -/

/-- The slice of a commit-detail JSON body consumed by the enrichment loop:
`det.get("stats", {}).get("additions"/"deletions", 0)` and
`det.get("files", [])` (each file's `filename`, defaulting to `""`).
Missing levels default to zero / empty exactly as the `get` chains do. -/
structure Detail where
  additions : Nat
  deletions : Nat
  files : List String
deriving DecidableEq, Repr

/-- `_gh_get(...) or {}` produces the all-default detail for a `None`
response. -/
def emptyDetail : Detail := { additions := 0, deletions := 0, files := [] }

/-- An HTTP response to a commit-detail request, in the shape `ghGet`
consumes. -/
structure HttpResp where
  status : Nat
  body : Except String Detail
  message : Option String
deriving Repr

/-- `_fetch_commit_detail(owner, repo, sha)` = `_gh_get(...) or {}`
(lines 562-564): a `None` result (statuses 202/204/404) becomes the empty
detail dict; an exception from `_gh_get` propagates. -/
def fetchCommitDetail (resp : HttpResp) : Except String Detail :=
  match ghGet resp.status resp.body resp.message with
  | Except.error e => Except.error e
  | Except.ok none => Except.ok emptyDetail
  | Except.ok (some d) => Except.ok d

/-- A commit as consumed by the enrichment loop: only `c["sha_full"]` is used
to issue the fetch (the remaining row fields are spread unchanged into the
enriched row). -/
structure CommitRef where
  sha_full : String
deriving DecidableEq, Repr

/-- An enriched commit row: `{**c, "additions": ..., "deletions": ...,
"files_changed": len(fs), "file_names": ", ".join(...)}`. -/
structure EnrichedCommit where
  base : CommitRef
  additions : Nat
  deletions : Nat
  files_changed : Nat
  file_names : String
deriving DecidableEq, Repr

/-- The accumulator of the enrichment loop: `ta`, `td`, `tf` and the
`enriched` list. -/
structure EnrichAcc where
  ta : Nat
  td : Nat
  tf : Nat
  enriched : List EnrichedCommit
deriving DecidableEq, Repr

/-- The enriched row built for one commit from its fetched detail. -/
def mkEnriched (c : CommitRef) (det : Detail) : EnrichedCommit :=
  { base := c, additions := det.additions, deletions := det.deletions,
    files_changed := det.files.length,
    file_names := String.intercalate ", " det.files }

/-- The enrichment loop of `page_author_intelligence` (lines 1293-1309):
one `_fetch_commit_detail` per commit, accumulating totals and enriched
rows.  There is no `try`/`except` around the fetch, so an exception raised
by `_gh_get` (any status ≥ 400 outside `{202, 204, 404}`) aborts the whole
loop; a `None` (no-data) response contributes zeros via `or {}`. -/
def enrichCommits (fetch : String → HttpResp) : List CommitRef →
    Except String EnrichAcc
  | [] => Except.ok { ta := 0, td := 0, tf := 0, enriched := [] }
  | c :: cs =>
    match fetchCommitDetail (fetch c.sha_full) with
    | Except.error e => Except.error e
    | Except.ok det =>
      match enrichCommits fetch cs with
      | Except.error e => Except.error e
      | Except.ok r =>
        Except.ok
          { ta := det.additions + r.ta, td := det.deletions + r.td,
            tf := det.files.length + r.tf,
            enriched := mkEnriched c det :: r.enriched }

/-! ### Project State Store (`_rd_state` / `_wr_state` / `_load_pm` /
`_save_pm` / `_del_pm`, lines 805-840) -/

/-- A JSON value, the payload type of the state file (numbers restricted to
integers, which covers every value the store writes). -/
inductive JVal where
  | jnull : JVal
  | jbool : Bool → JVal
  | jnum : Int → JVal
  | jstr : String → JVal
  | jarr : List JVal → JVal
  | jobj : List (String × JVal) → JVal

/-- The multi-tenant document: one JSON object keyed by
`"{owner}/{repo}@{branch}"`.  Keys are unique (dict semantics are enforced
by the update operations below). -/
abbrev StateDoc := List (String × JVal)

/-- The state of the backing file `.pm_state.json`: absent, present but
unreadable (`json.load` raises), or holding a document. -/
inductive FileState where
  | missing : FileState
  | corrupt : FileState
  | stored : StateDoc → FileState

/-- `_rd_state()` (lines 805-812): returns `{}` when the file is missing or
any exception occurs while reading/parsing; never raises. -/
def rdState : FileState → StateDoc
  | FileState.missing => []
  | FileState.corrupt => []
  | FileState.stored d => d

/-- `_wr_state(d)` (lines 815-820), assuming the write succeeds (write
failures are swallowed by the source and are outside the round-trip claim). -/
def wrState (d : StateDoc) : FileState := FileState.stored d

/-- Python `dict.get(key)`: the value at the first (unique) matching key. -/
def dictGet (d : StateDoc) (key : String) : Option JVal :=
  (d.find? (fun kv => kv.1 == key)).map (·.2)

/-- Python `s[key] = v`: any previous binding of `key` is replaced. -/
def dictSet (d : StateDoc) (key : String) (v : JVal) : StateDoc :=
  (d.filter (fun kv => kv.1 ≠ key)) ++ [(key, v)]

/-- Python `s.pop(key, None)`: removes the binding of `key` if present. -/
def dictPop (d : StateDoc) (key : String) : StateDoc :=
  d.filter (fun kv => kv.1 ≠ key)

/-- `_load_pm(key)` = `_rd_state().get(key, {})` (lines 823-824). -/
def loadPM (key : String) (fs : FileState) : JVal :=
  match dictGet (rdState fs) key with
  | some v => v
  | none => JVal.jobj []

/-- `_save_pm(key, state)` (lines 827-830): read-modify-write of the whole
document. -/
def savePM (key : String) (state : JVal) (fs : FileState) : FileState :=
  wrState (dictSet (rdState fs) key state)

/-- `_del_pm(key)` (lines 833-836). -/
def delPM (key : String) (fs : FileState) : FileState :=
  wrState (dictPop (rdState fs) key)

/-! ### Gantt Task Builder (`_build_gantt`, lines 1655-1702)

Times are in whole minutes: the parsed row timestamps come from
`strptime(ds[:16], "%Y-%m-%d %H:%M")` (minute granularity), a calendar date
`d` combined with `time(0)` is `d * 1440`, with `time(23, 59)` is
`d * 1440 + 1439`; `timedelta(days=2)` is `2880` and `timedelta(hours=4)` is
`240`. -/

/-- An edited DataFrame row as read by `_build_gantt`: `r.get(...)` of the
string columns (missing/NaN cells modelled as `none`, handled by `or ""`),
with the `Date` cell abstracted to its `strptime` parse result — `none` when
the cell is blank or unparsable (both cases `continue`). -/
structure RawRow where
  author : Option String
  tag : Option String
  sha : Option String
  desc : Option String
  date : Option Int
deriving DecidableEq, Repr

/-- A validated row appended to `rows` (lines 1673-1674): blank tags fall
back to `"Uncategorized"`. -/
structure GRow where
  author : String
  tag : String
  sha : String
  desc : String
  start : Int
deriving DecidableEq, Repr

/-- A produced Gantt task (the dict of lines 1694-1696); `endT` stands for
the `"End"` field (`end` is reserved in Lean). -/
structure GTask where
  author : String
  tag : String
  start : Int
  endT : Int
  sha : String
  desc : String
deriving DecidableEq, Repr

/-- Python `str.strip()`: drop leading and trailing whitespace (structural,
so that concrete inputs evaluate inside the kernel). -/
def pyStrip (s : String) : String :=
  String.mk (((s.toList.dropWhile Char.isWhitespace).reverse.dropWhile
    Char.isWhitespace).reverse)

/-- Row validation (lines 1661-1674): strip the cells, skip rows with a
blank author or no parseable date, default the tag. -/
def parseGRow (r : RawRow) : Option GRow :=
  let author := pyStrip (r.author.getD "")
  match r.date with
  | none => none
  | some ts =>
    if author = "" then none
    else
      let tag := pyStrip (r.tag.getD "")
      some { author := author,
             tag := if tag = "" then "Uncategorized" else tag,
             sha := pyStrip (r.sha.getD ""),
             desc := pyStrip (r.desc.getD ""),
             start := ts }

/-- The effective window end (lines 1657-1658): the latest extension date if
any exist, else the project end date, at `23:59` of that day. -/
def effectiveWindowEnd (pend : Int) (extensions : List Int) : Int :=
  (match extensions with
   | [] => pend
   | e :: es => es.foldl max e) * 1440 + 1439

/-- The span adjustments of one loop iteration (lines 1686-1693): a
non-positive raw span is widened to the 2-day gap, both endpoints are clamped
into the window, and a span collapsed by clamping is forced to 4 hours. -/
def mkSpan (ws we s e0 : Int) : Int × Int :=
  let e1 := if e0 ≤ s then s + 2880 else e0
  let s2 := max s ws
  let e2 := min e1 we
  let e3 := if e2 ≤ s2 then s2 + 240 else e2
  (s2, e3)

/-- The task appended for one row (lines 1694-1696). -/
def mkTask (ws we : Int) (r : GRow) (e0 : Int) : GTask :=
  let span := mkSpan ws we r.start e0
  { author := r.author, tag := r.tag, start := span.1, endT := span.2,
    sha := r.sha, desc := r.desc }

/-- The per-author task loop (lines 1684-1697) over a group already sorted by
`Start`: each row ends at the next row's start, the last row at
`start + timedelta(days=2)`. -/
def gtasksGo (ws we : Int) : GRow → List GRow → List GTask
  | r, [] => [mkTask ws we r (r.start + 2880)]
  | r, r2 :: rest => mkTask ws we r r2.start :: gtasksGo ws we r2 rest

/-- The trailing synthetic `"Idle"` task (lines 1698-1700): appended when the
last produced task ends before the window end. -/
def withIdle (we : Int) (ts : List GTask) : List GTask :=
  match ts.getLast? with
  | none => ts
  | some t =>
    if t.endT < we then
      ts ++ [{ author := t.author, tag := "Idle", start := t.endT, endT := we,
               sha := "", desc := "No activity" }]
    else ts

/-- `sort_values(["Author", "Start"])`: lexicographic comparison used to sort
the validated rows. -/
def rowLe (a b : GRow) : Bool :=
  a.author < b.author || (a.author == b.author && a.start ≤ b.start)

/-- Insert a row into a `rowLe`-sorted list (stable). -/
def insertRow (r : GRow) : List GRow → List GRow
  | [] => [r]
  | x :: xs => if rowLe r x then r :: x :: xs else x :: insertRow r xs

/-- Stable sort of the validated rows by `(Author, Start)`, implementing
`df0.sort_values(["Author", "Start"])` (line 1679). -/
def sortRows : List GRow → List GRow
  | [] => []
  | r :: rs => insertRow r (sortRows rs)

/-- `_build_gantt(df, start, end, extensions, gap=2)` (lines 1655-1702):
validate rows, sort by `(Author, Start)`, group by author, emit each group's
tasks plus its trailing idle task.  `pstart`/`pend` are calendar-day numbers;
an empty validated row set yields the empty task list (line 1677). -/
def buildGantt (rows : List RawRow) (pstart pend : Int)
    (extensions : List Int) : List GTask :=
  match rows.filterMap parseGRow with
  | [] => []
  | v :: vs =>
    ((sortRows (v :: vs)).splitBy (fun a b => a.author == b.author)).flatMap
      (fun g =>
        match g with
        | [] => []
        | r :: rest =>
          withIdle (effectiveWindowEnd pend extensions)
            (gtasksGo (pstart * 1440) (effectiveWindowEnd pend extensions)
              r rest))

/-! ## Claim theorems -/

/-- C1: when the requested branch equals the repository's default branch,
the reconciliation step of `collect_branch_data` performs no filtering: the
reconciled commit list equals the fetched commit list, unchanged and in the
same order. -/
theorem c1_default_branch_unfiltered
    (all_commits : List RawCommit) (branch default_branch : String)
    (compareFetch : Except String CompareData) (default_shas : List String)
    (h : branch = default_branch) :
    reconcileCommits all_commits branch default_branch compareFetch
      default_shas = all_commits := by
  simp [reconcileCommits, h]

/-- Witness for C1: the fallback fetch errors and the default-sha set even
contains the commit, yet the list passes through unfiltered. -/
theorem c1_default_branch_unfiltered_witness :
    ("main" : String) = "main" ∧
    reconcileCommits [{ sha := some "abc" }] "main" "main"
      (Except.error "boom") ["abc"] = [{ sha := some "abc" }] :=
  ⟨rfl, c1_default_branch_unfiltered _ _ _ _ _ rfl⟩

/-- C3: `_health_score` yields an integer in [0, 100] for every combination
of inputs, and exactly 35 for zero commits, zero issues, zero branch PRs and
zero authors. -/
theorem c3_health_score_bounds_and_empty :
    (∀ (d : HealthData) (now : Int),
        0 ≤ healthScore d now ∧ healthScore d now ≤ 100) ∧
    (∀ now : Int, healthScore emptyHealthData now = 35) := by
  constructor
  · intro d now
    unfold healthScore
    exact ⟨le_min (by norm_num) (le_max_left _ _), min_le_left _ _⟩
  · intro now
    rfl

/-- C4 counterexample: a non-empty commit list whose single commit has no
parseable date scores 50, not the 35 (= 50 − 15) that a −15 recency
adjustment would give (every other adjustment is zero at this input). -/
theorem c4_undated_commits_counterexample :
    healthScore { commits := [{ date := none }], issues := [],
                  branch_pulls := [], author_stats := [] } 0 = 50 ∧
    healthScore { commits := [{ date := none }], issues := [],
                  branch_pulls := [], author_stats := [] } 0 ≠ 35 :=
  ⟨by decide, by decide⟩

/-- C4 (amended): the −15 recency adjustment applies exactly to an empty
commit list; a non-empty commit list in which no commit has a parseable date
receives a recency adjustment of 0, so the score is exactly what the
remaining adjustments alone give. -/
theorem c4_recency_adjustment_amended (d : HealthData) (now : Int) :
    (d.commits = [] → recencyAdj d.commits now = -15) ∧
    (d.commits ≠ [] → (∀ c ∈ d.commits, c.date = none) →
      recencyAdj d.commits now = 0 ∧
      healthScore d now =
        min 100 (max 0 (50 + issueAdj d.issues + prAdj d.branch_pulls
          + authorAdj d.author_stats.length))) := by
  constructor
  · intro h
    simp [recencyAdj, h]
  · intro hne hall
    have hfm : d.commits.filterMap (·.date) = [] := by
      rw [List.filterMap_eq_nil_iff]
      exact hall
    have hr : recencyAdj d.commits now = 0 := by
      cases hc : d.commits with
      | nil => exact absurd hc hne
      | cons a as =>
        rw [hc] at hfm
        simp [recencyAdj, hfm]
    refine ⟨hr, ?_⟩
    unfold healthScore
    rw [hr]
    ring_nf

/-- Witness for the amended C4 at a concrete undated non-empty input. -/
theorem c4_recency_adjustment_amended_witness :
    recencyAdj [{ date := none }] 0 = 0 ∧
    healthScore { commits := [{ date := none }], issues := [],
                  branch_pulls := [], author_stats := [] } 0 =
      min 100 (max 0 (50 + issueAdj [] + prAdj []
        + authorAdj ([] : List String).length)) :=
  (c4_recency_adjustment_amended
    { commits := [{ date := none }], issues := [], branch_pulls := [],
      author_stats := [] } 0).2 (by decide) (by decide)

/-- C8: `_gh_get` yields the no-data result `None` without raising exactly
for statuses 202, 204 and 404; every other status ≥ 400 raises an error
carrying the provider message when present, else the generic `"HTTP {code}"`
text; statuses below 400 return the parsed JSON body. -/
theorem c8_gh_get_status_contract (α : Type) (status : Nat)
    (body : Except String α) (msg : Option String) :
    (ghGet status body msg = Except.ok none ↔
      (status = 202 ∨ status = 204 ∨ status = 404)) ∧
    (status ≥ 400 → ¬(status = 202 ∨ status = 204 ∨ status = 404) →
      ghGet status body msg = Except.error
        ("GitHub API " ++ toString status ++ ": "
          ++ msg.getD ("HTTP " ++ toString status))) ∧
    (status < 400 → ¬(status = 202 ∨ status = 204 ∨ status = 404) →
      ∀ j, body = Except.ok j →
        ghGet status body msg = Except.ok (some j)) := by
  by_cases h1 : status = 202 ∨ status = 204 ∨ status = 404
  · exact ⟨by simp [ghGet, h1], fun _ h2 => absurd h1 h2,
           fun _ h2 => absurd h1 h2⟩
  · by_cases h2 : status ≥ 400
    · refine ⟨?_, fun _ _ => by simp [ghGet, h1, h2], fun h3 _ => absurd h2 (by omega)⟩
      simp [ghGet, h1, h2]
    · refine ⟨?_, fun h3 _ => absurd h3 h2,
              fun _ _ j hj => by simp [ghGet, h1, h2, hj, Except.map]⟩
      constructor
      · intro he
        cases body with
        | ok v => simp [ghGet, h1, h2, Except.map] at he
        | error e => simp [ghGet, h1, h2, Except.map] at he
      · intro hs
        exact absurd hs h1

/-- Witness for C8: a 404 yields `None`; a 403 raises carrying the provider
message; a 200 returns the parsed body. -/
theorem c8_gh_get_status_contract_witness :
    ghGet 404 (Except.ok (0 : Nat)) none = Except.ok none ∧
    ghGet 403 (Except.ok (0 : Nat)) (some "API rate limit exceeded")
      = Except.error ("GitHub API " ++ toString 403 ++ ": "
          ++ (some "API rate limit exceeded").getD ("HTTP " ++ toString 403)) ∧
    ghGet 200 (Except.ok (7 : Nat)) none = Except.ok (some 7) :=
  ⟨(c8_gh_get_status_contract Nat 404 (Except.ok 0) none).1.mpr (by decide),
   (c8_gh_get_status_contract Nat 403 (Except.ok 0)
      (some "API rate limit exceeded")).2.1 (by decide) (by decide),
   (c8_gh_get_status_contract Nat 200 (Except.ok 7) none).2.2 (by decide)
      (by decide) 7 rfl⟩

/-- Helper: `find?` misses every entry of a dict from which `key` was
filtered out. -/
theorem find_filter_ne_eq_none (d : StateDoc) (key : String) :
    (d.filter (fun kv => kv.1 ≠ key)).find? (fun kv => kv.1 == key) = none := by
  rw [List.find?_eq_none]
  intro x hx
  have hne := (List.mem_filter.mp hx).2
  simp only [decide_not, Bool.not_eq_true', decide_eq_false_iff_not] at hne
  simp [hne]

/-- Helper: looking up a key right after `dictSet` returns the new value. -/
theorem dictGet_dictSet_self (d : StateDoc) (key : String) (v : JVal) :
    dictGet (dictSet d key v) key = some v := by
  unfold dictGet dictSet
  rw [List.find?_append, find_filter_ne_eq_none]
  simp

/-- Helper: looking up a key right after `dictPop` misses. -/
theorem dictGet_dictPop_self (d : StateDoc) (key : String) :
    dictGet (dictPop d key) key = none := by
  unfold dictGet dictPop
  rw [find_filter_ne_eq_none]
  rfl

/-- C9: Project State Store round-trip: a `load` after `save` of the same
key reproduces the saved record for any starting file state; `delete`
followed by `load` returns the empty record; `delete` of an absent key
leaves the stored document unchanged; and `load` never raises on a missing
or corrupt backing file, returning the empty record. -/
theorem c9_state_store_roundtrip :
    (∀ (key : String) (R : JVal) (fs : FileState),
        loadPM key (savePM key R fs) = R) ∧
    (∀ (key : String) (fs : FileState),
        loadPM key (delPM key fs) = JVal.jobj []) ∧
    (∀ (key : String) (fs : FileState),
        dictGet (rdState fs) key = none →
          rdState (delPM key fs) = rdState fs) ∧
    (∀ key : String,
        loadPM key FileState.missing = JVal.jobj [] ∧
        loadPM key FileState.corrupt = JVal.jobj []) := by
  refine ⟨?_, ?_, ?_, fun key => ⟨rfl, rfl⟩⟩
  · intro key R fs
    simp [loadPM, savePM, wrState, rdState, dictGet_dictSet_self]
  · intro key fs
    simp [loadPM, delPM, wrState, rdState, dictGet_dictPop_self]
  · intro key fs h
    unfold dictGet at h
    have h2 : (rdState fs).find? (fun kv => kv.1 == key) = none := by
      cases hf : (rdState fs).find? (fun kv => kv.1 == key) with
      | none => rfl
      | some x => rw [hf] at h; simp at h
    rw [List.find?_eq_none] at h2
    show rdState (wrState ((rdState fs).filter _)) = rdState fs
    unfold wrState rdState
    refine List.filter_eq_self.mpr ?_
    intro a ha
    have h3 := h2 a ha
    simp only [Bool.not_eq_true] at h3
    simp only [decide_not, Bool.not_eq_true']
    exact h3

/-- Witness for C9 (delete of an absent key is a no-op) at a concrete
store. -/
theorem c9_state_store_roundtrip_witness :
    dictGet (rdState (FileState.stored [("o/r@main", JVal.jstr "x")]))
      "other" = none ∧
    rdState (delPM "other" (FileState.stored [("o/r@main", JVal.jstr "x")]))
      = rdState (FileState.stored [("o/r@main", JVal.jstr "x")]) :=
  ⟨rfl, c9_state_store_roundtrip.2.2.1 "other"
    (FileState.stored [("o/r@main", JVal.jstr "x")]) rfl⟩

/-- C7: `_classify_file` is a total deterministic function: every path maps
to exactly one label of the fixed category set, `classify(p) = classify(p)`,
and filename-pattern matching takes precedence over the extension table —
a lower-cased basename containing `"test_"` classifies as `"Testing"`
whatever its extension. -/
theorem c7_classifier_total_deterministic (p : PyStr) :
    classifyFile p = classifyFile p ∧
    classifyFile p ∈ CATEGORY_SET ∧
    (pyContains (lowerBasename p) (pstr "test_") = true →
      classifyFile p = "Testing") := by
  refine ⟨rfl, ?_, ?_⟩
  · unfold classifyFile
    split
    case _ q hfind =>
      have hq := List.mem_of_find?_eq_some hfind
      have hall : ∀ x ∈ FILE_NAME_PATTERNS, x.1 ∈ CATEGORY_SET := by decide
      exact hall q hq
    case _ =>
      split
      case _ q hfind =>
        have hq := List.mem_of_find?_eq_some hfind
        have hall : ∀ x ∈ FILE_CLASS_MAP, x.1 ∈ CATEGORY_SET := by decide
        exact hall q hq
      case _ => decide
  · intro h
    unfold classifyFile FILE_NAME_PATTERNS
    rw [List.find?_cons_of_pos]
    simp [h]

/-- Witness for C7: `src/test_foo.py` has the Source Code extension `.py`
yet classifies as Testing via the `"test_"` pattern. -/
theorem c7_classifier_total_deterministic_witness :
    pyContains (lowerBasename (pstr "src/test_foo.py")) (pstr "test_") = true ∧
    classifyFile (pstr "src/test_foo.py") = "Testing" :=
  ⟨by decide,
   (c7_classifier_total_deterministic (pstr "src/test_foo.py")).2.2 (by decide)⟩

/-- C2 counterexample: a hard HTTP 403 on the single commit's detail fetch
aborts the whole enrichment batch — the loop has no exception handler, so
the `RuntimeError` raised by `_gh_get` propagates instead of contributing
zero stats and continuing. -/
theorem c2_enrich_403_aborts_batch :
    enrichCommits
      (fun _ => { status := 403, body := Except.ok emptyDetail,
                  message := some "API rate limit exceeded" })
      [{ sha_full := "0a1b2c3" }]
      = Except.error "GitHub API 403: API rate limit exceeded" := by rfl

/-- C2 (amended): a no-data detail response (HTTP 202, 204 or 404,
normalized to `None` and hence to `{}`) does not abort the batch — that
commit contributes zero additions, deletions and files, and enrichment
continues over the remaining commits; when no fetch raises (every per-commit
detail fetch yields a value), the whole batch succeeds.  A hard HTTP error
(status ≥ 400 other than those, e.g. a 403 rate limit) raises and aborts the
batch. -/
theorem c2_enrich_no_data_continues (fetch : String → HttpResp) :
    (∀ ac : List CommitRef,
      (∀ c ∈ ac, (fetchCommitDetail (fetch c.sha_full)).isOk = true) →
      (enrichCommits fetch ac).isOk = true) ∧
    (∀ (c : CommitRef) (cs : List CommitRef),
      ((fetch c.sha_full).status = 202 ∨ (fetch c.sha_full).status = 204 ∨
        (fetch c.sha_full).status = 404) →
      enrichCommits fetch (c :: cs) =
        (enrichCommits fetch cs).map (fun r =>
          { ta := r.ta, td := r.td, tf := r.tf,
            enriched := mkEnriched c emptyDetail :: r.enriched })) := by
  constructor
  · intro ac hall
    induction ac with
    | nil => rfl
    | cons c cs ih =>
      have hc := hall c (List.mem_cons_self c cs)
      have hcs : (enrichCommits fetch cs).isOk = true :=
        ih (fun x hx => hall x (List.mem_cons_of_mem c hx))
      cases hdet : fetchCommitDetail (fetch c.sha_full) with
      | error e => rw [hdet] at hc; simp [Except.isOk, Except.toBool] at hc
      | ok det =>
        cases hrest : enrichCommits fetch cs with
        | error e => rw [hrest] at hcs; simp [Except.isOk, Except.toBool] at hcs
        | ok r => simp [enrichCommits, hdet, hrest, Except.isOk, Except.toBool]
  · intro c cs hstat
    have hdet : fetchCommitDetail (fetch c.sha_full) = Except.ok emptyDetail := by
      unfold fetchCommitDetail ghGet
      rcases hstat with h | h | h <;> simp [h]
    cases hrest : enrichCommits fetch cs with
    | error e => simp [enrichCommits, hdet, hrest, Except.map]
    | ok r => simp [enrichCommits, hdet, hrest, Except.map, emptyDetail]

/-- Witness for the amended C2: a batch of one commit whose detail fetch
returns 404 succeeds, and a leading 404 commit contributes exactly zero to
the accumulator while the rest of the batch is still processed. -/
theorem c2_enrich_no_data_continues_witness :
    ((enrichCommits
        (fun _ => { status := 404, body := Except.ok emptyDetail,
                    message := none })
        [{ sha_full := "0a1b2c3" }]).isOk = true) ∧
    (enrichCommits
        (fun _ => { status := 404, body := Except.ok emptyDetail,
                    message := none })
        [{ sha_full := "0a1b2c3" }] =
      (enrichCommits
          (fun _ => { status := 404, body := Except.ok emptyDetail,
                      message := none })
          []).map (fun r =>
        { ta := r.ta, td := r.td, tf := r.tf,
          enriched := mkEnriched { sha_full := "0a1b2c3" } emptyDetail
            :: r.enriched })) :=
  ⟨(c2_enrich_no_data_continues
      (fun _ => { status := 404, body := Except.ok emptyDetail,
                  message := none })).1
    [{ sha_full := "0a1b2c3" }] (by intro c hc; rfl),
   (c2_enrich_no_data_continues
      (fun _ => { status := 404, body := Except.ok emptyDetail,
                  message := none })).2
    { sha_full := "0a1b2c3" } [] (Or.inr (Or.inr rfl))⟩

/-- Helper: `mkTask` exposes its start as the first `mkSpan` component. -/
theorem mkTask_start_eq (ws we : Int) (r : GRow) (e0 : Int) :
    (mkTask ws we r e0).start = (mkSpan ws we r.start e0).1 := rfl

/-- Helper: `mkTask` exposes its end as the second `mkSpan` component. -/
theorem mkTask_endT_eq (ws we : Int) (r : GRow) (e0 : Int) :
    (mkTask ws we r e0).endT = (mkSpan ws we r.start e0).2 := rfl

/-- Helper: every span produced by `mkSpan` is strictly positive: the final
correction forces `+4h` whenever the clamped end fell at or below the
clamped start. -/
theorem mkSpan_fst_lt_snd (ws we s e0 : Int) :
    (mkSpan ws we s e0).1 < (mkSpan ws we s e0).2 := by
  unfold mkSpan
  dsimp only
  split <;> split <;> omega

/-- Helper: a span's end is bounded by the window end unless the forced
4-hour minimum fired, so it never exceeds
`max we (start + 240)`. -/
theorem mkSpan_snd_le (ws we s e0 : Int) :
    (mkSpan ws we s e0).2 ≤ max we ((mkSpan ws we s e0).1 + 240) := by
  unfold mkSpan
  dsimp only
  split <;> split <;> omega

/-- Helper: every task emitted by the per-author loop is an `mkTask`. -/
theorem gtasksGo_mem (ws we : Int) (r : GRow) (rest : List GRow) :
    ∀ t ∈ gtasksGo ws we r rest, ∃ r0 e0, t = mkTask ws we r0 e0 := by
  induction rest generalizing r with
  | nil =>
    intro t ht
    simp only [gtasksGo, List.mem_singleton] at ht
    exact ⟨r, r.start + 2880, ht⟩
  | cons r2 rs ih =>
    intro t ht
    simp only [gtasksGo, List.mem_cons] at ht
    rcases ht with h | h
    · exact ⟨r, r2.start, h⟩
    · exact ih r2 t h

/-- Helper: a task surviving `withIdle` is either one of the loop's tasks or
the synthetic idle task, which ends exactly at the window end and starts
strictly before it. -/
theorem withIdle_mem (we : Int) (ts : List GTask) :
    ∀ t ∈ withIdle we ts, t ∈ ts ∨ (t.endT = we ∧ t.start < we) := by
  intro t ht
  unfold withIdle at ht
  split at ht
  · exact Or.inl ht
  · split at ht
    · next hlt =>
      rcases List.mem_append.mp ht with h | h
      · exact Or.inl h
      · rw [List.mem_singleton] at h
        subst h
        exact Or.inr ⟨rfl, hlt⟩
    · exact Or.inl ht

/-- Helper: every task of `buildGantt` is either a clamped `mkTask` span or
an idle filler ending exactly at the effective window end. -/
theorem buildGantt_mem_cases (rows : List RawRow) (pstart pend : Int)
    (extensions : List Int) :
    ∀ t ∈ buildGantt rows pstart pend extensions,
      (∃ r0 e0, t = mkTask (pstart * 1440)
          (effectiveWindowEnd pend extensions) r0 e0) ∨
      (t.endT = effectiveWindowEnd pend extensions ∧ t.start < t.endT) := by
  intro t ht
  unfold buildGantt at ht
  split at ht
  · simp at ht
  · rcases List.mem_flatMap.mp ht with ⟨g, hg, htg⟩
    cases g with
    | nil => simp at htg
    | cons r rest =>
      rcases withIdle_mem _ _ t htg with h | h
      · exact Or.inl (gtasksGo_mem _ _ r rest t h)
      · rcases h with ⟨h1, h2⟩
        exact Or.inr ⟨h1, by rw [h1]; exact h2⟩

/-- C5 counterexample: with project window day 0 → day 0 and no extensions
the effective window end is minute 1439, yet the single row timestamped at
minute 2880 (after the window end) produces a task whose end 3120 exceeds
the effective window end — clamping left `end ≤ start`, so the forced
4-hour span pushed past the window. -/
theorem c5_gantt_overrun_counterexample :
    effectiveWindowEnd 0 [] = 1439 ∧
    buildGantt [{ author := some "a", tag := none, sha := none, desc := none,
                  date := some 2880 }] 0 0 []
      = [{ author := "a", tag := "Uncategorized", start := 2880, endT := 3120,
           sha := "", desc := "" }] ∧
    ¬ (3120 : Int) ≤ effectiveWindowEnd 0 [] :=
  ⟨by decide, by decide, by decide⟩

/-- C5 (amended): the effective window end is the latest extension date if
any extensions exist, else the project end date, at 23:59 of that day; and
every produced task's end is at most the larger of the effective window end
and 4 hours past the task's own start — a task can exceed the window end
only through the forced minimum span when clamping leaves its end at or
below its start. -/
theorem c5_gantt_window_end_amended (rows : List RawRow) (pstart pend : Int)
    (extensions : List Int) :
    (extensions = [] →
      effectiveWindowEnd pend extensions = pend * 1440 + 1439) ∧
    (∀ e es, extensions = e :: es →
      effectiveWindowEnd pend extensions = (es.foldl max e) * 1440 + 1439) ∧
    (∀ t ∈ buildGantt rows pstart pend extensions,
      t.endT ≤ max (effectiveWindowEnd pend extensions) (t.start + 240)) := by
  refine ⟨fun h => by subst h; rfl, fun e es h => by subst h; rfl, ?_⟩
  intro t ht
  rcases buildGantt_mem_cases rows pstart pend extensions t ht with
    ⟨r0, e0, rfl⟩ | ⟨h1, _⟩
  · rw [mkTask_endT_eq, mkTask_start_eq]
    exact mkSpan_snd_le _ _ _ _
  · rw [h1]
    exact le_max_left _ _

/-- Witness for the amended C5: a concrete in-window row yields a task whose
end respects the bound. -/
theorem c5_gantt_window_end_amended_witness :
    ((⟨"a", "Uncategorized", 1440, 4320, "", ""⟩ : GTask) ∈
      buildGantt [{ author := some "a", tag := none, sha := none,
                    desc := none, date := some 1440 }] 0 5 []) ∧
    (⟨"a", "Uncategorized", 1440, 4320, "", ""⟩ : GTask).endT ≤
      max (effectiveWindowEnd 5 [])
        ((⟨"a", "Uncategorized", 1440, 4320, "", ""⟩ : GTask).start + 240) :=
  ⟨by decide,
   (c5_gantt_window_end_amended
      [{ author := some "a", tag := none, sha := none, desc := none,
         date := some 1440 }] 0 5 []).2.2 _ (by decide)⟩

/-- C6: every task produced by `_build_gantt` has end strictly greater than
start (zero or negative computed spans are replaced by the synthetic 2-day
or 4-hour minimum), and an empty input yields an empty task list. -/
theorem c6_gantt_end_gt_start_and_empty :
    (∀ (rows : List RawRow) (pstart pend : Int) (extensions : List Int),
      ∀ t ∈ buildGantt rows pstart pend extensions, t.start < t.endT) ∧
    (∀ (pstart pend : Int) (extensions : List Int),
      buildGantt [] pstart pend extensions = []) := by
  constructor
  · intro rows pstart pend extensions t ht
    rcases buildGantt_mem_cases rows pstart pend extensions t ht with
      ⟨r0, e0, rfl⟩ | ⟨_, h2⟩
    · rw [mkTask_endT_eq, mkTask_start_eq]
      exact mkSpan_fst_lt_snd _ _ _ _
    · exact h2
  · intro pstart pend extensions
    rfl

/-- Witness for C6: a concrete task produced from one row has a strictly
positive span. -/
theorem c6_gantt_end_gt_start_witness :
    ((⟨"b", "Uncategorized", 2000, 4319, "", ""⟩ : GTask) ∈
      buildGantt [{ author := some "b", tag := none, sha := none,
                    desc := none, date := some 2000 }] 0 2 []) ∧
    (⟨"b", "Uncategorized", 2000, 4319, "", ""⟩ : GTask).start <
      (⟨"b", "Uncategorized", 2000, 4319, "", ""⟩ : GTask).endT :=
  ⟨by decide,
   c6_gantt_end_gt_start_and_empty.1
      [{ author := some "b", tag := none, sha := none, desc := none,
         date := some 2000 }] 0 2 [] _ (by decide)⟩

/-- C10: `collect_branch_data`'s row construction is NOT total over commit
JSON objects: at a commit whose message is absent or the empty string,
`(cd.get("message") or "").splitlines()[0]` indexes into an empty list and
raises `IndexError` — the `or ""` default shows the empty case was meant to
be handled, so this is a slip in the code, not in the claim.  A non-empty
message succeeds, and the author-rollup update is total at the same
commit. -/
theorem c10_commit_row_empty_message_raises :
    buildCommitRow { sha := some "d4c3b2a1", message := some "",
                     author_name := some "Alice", author_date := some 0,
                     login := none, avatar_url := none }
      = Except.error "IndexError: list index out of range" ∧
    buildCommitRow { sha := some "d4c3b2a1", message := none,
                     author_name := some "Alice", author_date := some 0,
                     login := none, avatar_url := none }
      = Except.error "IndexError: list index out of range" ∧
    buildCommitRow { sha := some "d4c3b2a1", message := some "fix bug",
                     author_name := some "Alice", author_date := some 0,
                     login := none, avatar_url := none }
      = Except.ok { sha_short := pstr "d4c3b2a", sha_full := pstr "d4c3b2a1",
                    message := pstr "fix bug", full_message := pstr "fix bug",
                    author_id := "Alice", author_name := "Alice",
                    author_login := none } ∧
    updateAuthorStat { sha := some "d4c3b2a1", message := some "",
                       author_name := some "Alice", author_date := some 0,
                       login := none, avatar_url := none } emptyAuthorStat
      = { commits := 1, first := some 0, last := some 0, login := none,
          name := some "Alice", avatar := none } :=
  ⟨by rfl, by rfl, by rfl, by rfl⟩

end GithubPM
